import Mathlib

/-!
Shallow embedding of the snake-game simulation core (src/unnamed/part_000,
with src/snake/main.js an earlier single-difficulty variant of the same code).

Modelling conventions:
* A JS position object (and a direction vector) is a `Cell` of two `Int`s.
* The free-standing mutable variables (snake, directionQueue, food, score,
  best, tickMs, loopId, isPaused, isGameOver) become the record `GameState`;
  `loopId`'s observable content (is a clock armed?) becomes `loopRunning`.
* `Math.random()`-driven sampling is modelled by an explicit sample stream
  `rng : Nat → Cell` (each entry is one candidate drawn by
  `randomInt(0,GRID_SIZE)` twice, hence in-bounds when the stream is
  well-formed) plus a fuel bound; the source's unbounded rejection loop
  returns `none` when fuel is exhausted, modelling divergence.
* `tickMs * speedupFactor` (a JS float product with factor 0.94/0.92/0.90/0.88)
  is modelled in exact arithmetic as `tickMs * speedupFactorNum / 100`
  with `Math.floor` as `Nat` division.
* DOM / canvas / localStorage calls have no effect on the simulation state
  and are dropped; `updatePanel`, `showOverlay`, `hideOverlay`, `render` are
  pure UI.
-/

namespace SnakeGame

/-- A grid cell or a direction vector: the JS object `\x7b x, y \x7d`. -/
structure Cell where
  x : Int
  y : Int
deriving DecidableEq, Repr

/-- Source `const GRID_SIZE = 20`. -/
def GRID_SIZE : Int := 20

/-- One entry of the `DIFFICULTIES` table (the `label` string is UI-only and
dropped); `speedupFactorNum` is the numerator over 100 of the JS float
`speedupFactor`. -/
structure Difficulty where
  initialSpeedMs : Nat
  speedupFoodInterval : Nat
  speedupFactorNum : Nat
  minTickMs : Nat
deriving DecidableEq, Repr

/-- Source `DIFFICULTIES.easy`. -/
def easy : Difficulty := ⟨200, 5, 94, 100⟩

/-- Source `DIFFICULTIES.normal`. -/
def normal : Difficulty := ⟨160, 4, 92, 75⟩

/-- Source `DIFFICULTIES.hard`. -/
def hard : Difficulty := ⟨120, 3, 90, 60⟩

/-- Source `DIFFICULTIES.insane`. -/
def insane : Difficulty := ⟨90, 2, 88, 45⟩

/-- The `DIFFICULTIES` table as a list of its four entries. -/
def DIFFICULTIES : List Difficulty := [easy, normal, hard, insane]

/-- Source `positionsEqual(a, b)`. -/
def positionsEqual (a b : Cell) : Bool :=
  a.x == b.x && a.y == b.y

/-- The wall-collision test inlined in `tick`:
`nextHead.x < 0 || nextHead.y < 0 || nextHead.x >= GRID_SIZE || nextHead.y >= GRID_SIZE`. -/
def wallCollision (c : Cell) : Bool :=
  decide (c.x < 0) || decide (c.y < 0) ||
  decide (GRID_SIZE ≤ c.x) || decide (GRID_SIZE ≤ c.y)

/-- A cell lies within `[0, GRID_SIZE)` on both axes (spec §4.1 Grid contract;
the negation of `wallCollision`). -/
def inBounds (c : Cell) : Bool :=
  decide (0 ≤ c.x) && decide (c.x < GRID_SIZE) &&
  decide (0 ≤ c.y) && decide (c.y < GRID_SIZE)

/-- Source `getRandomEmptyCell(exclusions)`: rejection sampling over the stream
`rng` of candidate cells (each candidate is built from two
`randomInt(0, GRID_SIZE)` draws), starting at stream index `i`, with at most
`fuel` attempts (`none` models the source's loop running forever). -/
def getRandomEmptyCell (rng : Nat → Cell) (exclusions : List Cell) :
    Nat → Nat → Option Cell
  | _, 0 => none
  | i, fuel + 1 =>
    let pos := rng i
    if exclusions.any (fun p => positionsEqual p pos) then
      getRandomEmptyCell rng exclusions (i + 1) fuel
    else
      some pos

/-- The simulation state: the source's free-standing mutable variables. -/
structure GameState where
  snake : List Cell
  directionQueue : List Cell
  food : Cell
  score : Nat
  best : Nat
  tickMs : Nat
  loopRunning : Bool
  isPaused : Bool
  isGameOver : Bool
deriving DecidableEq, Repr

/-- Source `keyToDir(key)`. -/
def keyToDir (key : String) : Option Cell :=
  if key = "arrowup" ∨ key = "w" then some ⟨0, -1⟩
  else if key = "arrowdown" ∨ key = "s" then some ⟨0, 1⟩
  else if key = "arrowleft" ∨ key = "a" then some ⟨-1, 0⟩
  else if key = "arrowright" ∨ key = "d" then some ⟨1, 0⟩
  else none

/-- Source `dirStringToVector(s)`. -/
def dirStringToVector (s : String) : Cell :=
  if s = "up" then ⟨0, -1⟩
  else if s = "down" then ⟨0, 1⟩
  else if s = "left" then ⟨-1, 0⟩
  else if s = "right" then ⟨1, 0⟩
  else ⟨0, 0⟩

/-- Source `queueDirection(next)`: `directionQueue[directionQueue.length - 1]` is
`undefined` (hence falsy) exactly on the empty array. -/
def queueDirection (q : List Cell) (next : Cell) : List Cell :=
  match q.getLast? with
  | none => q ++ [next]
  | some lastQueued =>
    if lastQueued.x + next.x = 0 ∧ lastQueued.y + next.y = 0 then q
    else q ++ [next]

/-- Source `stopLoop()` then `isGameOver = true`, i.e. `gameOver()` minus the UI
overlay call. -/
def gameOver (s : GameState) : GameState :=
  { s with isGameOver := true, loopRunning := false }

/-- Source `updateScore(delta)`: bumps `score` and raises `best` when exceeded
(the localStorage write and DOM update are external I/O). -/
def updateScore (delta : Nat) (s : GameState) : GameState :=
  let sc := s.score + delta
  { s with score := sc, best := if s.best < sc then sc else s.best }

/-- Source `maybeSpeedUp()`: `foodsEaten = Math.floor(score / 1) = score`; on a
positive multiple of `speedupFoodInterval` the interval is recomputed as
`max(minTickMs, floor(tickMs * speedupFactor))` and, when it changed, the
clock is re-armed (`startLoop`). -/
def maybeSpeedUp (diff : Difficulty) (s : GameState) : GameState :=
  let foodsEaten := s.score
  if 0 < foodsEaten ∧ foodsEaten % diff.speedupFoodInterval = 0 then
    let newTick := max diff.minTickMs (s.tickMs * diff.speedupFactorNum / 100)
    if newTick ≠ s.tickMs then
      { s with tickMs := newTick, loopRunning := true }
    else s
  else s

/-- Source `togglePause()`: flips `isPaused` (unless game over), stopping or
starting the clock accordingly. -/
def togglePause (s : GameState) : GameState :=
  if s.isGameOver then s
  else if s.isPaused then
    { s with isPaused := false, loopRunning := true }
  else
    { s with isPaused := true, loopRunning := false }

/-- Source `resume()`: only acts when paused and not game over. -/
def resume (s : GameState) : GameState :=
  if !s.isPaused || s.isGameOver then s
  else togglePause s

/-- Source `resetGame()`: rebuilds every state variable; food placement draws from
the sample stream `rng` with `fuel` attempts. The source ends with
`updateScore(0)` and `startLoop()`; `best` persists across games. -/
def resetGame (diff : Difficulty) (rng : Nat → Cell) (fuel : Nat)
    (best : Nat) : Option GameState :=
  let start : Cell := ⟨GRID_SIZE / 2, GRID_SIZE / 2⟩
  let snake : List Cell := [start, ⟨start.x - 1, start.y⟩, ⟨start.x - 2, start.y⟩]
  (getRandomEmptyCell rng snake 0 fuel).map (fun f =>
    let s : GameState :=
      { snake := snake
        directionQueue := [⟨1, 0⟩]
        food := f
        score := 0
        best := best
        tickMs := diff.initialSpeedMs
        loopRunning := false
        isPaused := false
        isGameOver := false }
    { updateScore 0 s with loopRunning := true })

/-- Source `restart()`. -/
def restart (diff : Difficulty) (rng : Nat → Cell) (fuel : Nat)
    (best : Nat) : Option GameState :=
  resetGame diff rng fuel best

/-- Source `tick()`: one clock callback. Order of effects follows the source:
consume the queue head (shift only when more than one entry), compute
`nextHead`, wall then self collision (over the full pre-move body) ending in
`gameOver`, otherwise unshift the head, handle food (score, speed-up, food
relocation), and pop the tail when not growing. `none` models the two ways
the source has no defined next state: an empty queue or snake (a TypeError
on `undefined.x`, unreachable from reset) and food relocation running out of
fuel (the source's unbounded loop). -/
def tick (diff : Difficulty) (rng : Nat → Cell) (fuel : Nat)
    (s : GameState) : Option GameState :=
  if s.isPaused || s.isGameOver then some s
  else
    match s.directionQueue, s.snake with
    | currentDir :: qrest, head :: _ =>
      let q := if qrest.isEmpty then currentDir :: qrest else qrest
      let nextHead : Cell := ⟨head.x + currentDir.x, head.y + currentDir.y⟩
      if wallCollision nextHead then
        some (gameOver { s with directionQueue := q })
      else if s.snake.any (fun p => positionsEqual p nextHead) then
        some (gameOver { s with directionQueue := q })
      else
        let snake1 := nextHead :: s.snake
        if positionsEqual nextHead s.food then
          let s1 := maybeSpeedUp diff
            (updateScore 1 { s with snake := snake1, directionQueue := q })
          (getRandomEmptyCell rng snake1 0 fuel).map (fun f =>
            { s1 with food := f })
        else
          some { s with snake := snake1.dropLast, directionQueue := q }
    | _, _ => none

/-- The four direction unit vectors of the data model (spec §3). -/
def unitDirs : List Cell := [⟨1, 0⟩, ⟨-1, 0⟩, ⟨0, 1⟩, ⟨0, -1⟩]

/-- Modelled from the spec: the `data-dir` attribute strings of the HTML
d-pad buttons are not in the sources (the HTML page is missing); spec §6
says the input source delivers direction intents `up|down|left|right`. -/
def dpadIntents : List String := ["up", "down", "left", "right"]

/-- No two temporally adjacent queued directions sum to the zero vector
(spec §3, Direction Queue invariant). -/
def noReversalB : List Cell → Bool
  | a :: b :: rest =>
    !(decide (a.x + b.x = 0) && decide (a.y + b.y = 0)) && noReversalB (b :: rest)
  | _ => true

/-- A deterministic sample stream that always proposes the corner cell. -/
def rngZero : Nat → Cell := fun _ => ⟨0, 0⟩

/-- The state reached by `resetGame` under difficulty `normal` with food at
(11,10): the spec §8 scenario state. -/
def sBase : GameState :=
  { snake := [⟨10, 10⟩, ⟨9, 10⟩, ⟨8, 10⟩]
    directionQueue := [⟨1, 0⟩]
    food := ⟨11, 10⟩
    score := 0
    best := 0
    tickMs := 160
    loopRunning := true
    isPaused := false
    isGameOver := false }

/-- Spec §8 wall scenario: head at (19,10) moving right. -/
def sWall : GameState := { sBase with snake := [⟨19, 10⟩, ⟨18, 10⟩, ⟨17, 10⟩] }

/-- A paused, not-game-over state. -/
def sPausedGS : GameState := { sBase with isPaused := true, loopRunning := false }

/-- The state after one tick from `sBase`: the head lands on the food. -/
def sEatPost : GameState :=
  { snake := [⟨11, 10⟩, ⟨10, 10⟩, ⟨9, 10⟩, ⟨8, 10⟩]
    directionQueue := [⟨1, 0⟩]
    food := ⟨0, 0⟩
    score := 1
    best := 1
    tickMs := 160
    loopRunning := true
    isPaused := false
    isGameOver := false }

/-! ### Basic lemmas about the embedded operations -/

theorem positionsEqual_iff {a b : Cell} : positionsEqual a b = true ↔ a = b := by
  cases a; cases b
  simp [positionsEqual, Cell.mk.injEq]

theorem any_positionsEqual_iff {l : List Cell} {c : Cell} :
    (l.any fun p => positionsEqual p c) = true ↔ c ∈ l := by
  simp [List.any_eq_true, positionsEqual_iff]

theorem wallCollision_iff {c : Cell} :
    wallCollision c = true ↔
      c.x < 0 ∨ c.y < 0 ∨ GRID_SIZE ≤ c.x ∨ GRID_SIZE ≤ c.y := by
  simp [wallCollision]
  tauto

theorem inBounds_iff {c : Cell} :
    inBounds c = true ↔
      0 ≤ c.x ∧ c.x < GRID_SIZE ∧ 0 ≤ c.y ∧ c.y < GRID_SIZE := by
  simp [inBounds]
  tauto

@[simp] theorem gameOver_snake (s : GameState) : (gameOver s).snake = s.snake := rfl

@[simp] theorem gameOver_directionQueue (s : GameState) :
    (gameOver s).directionQueue = s.directionQueue := rfl

@[simp] theorem gameOver_food (s : GameState) : (gameOver s).food = s.food := rfl

@[simp] theorem gameOver_score (s : GameState) : (gameOver s).score = s.score := rfl

@[simp] theorem gameOver_best (s : GameState) : (gameOver s).best = s.best := rfl

@[simp] theorem gameOver_tickMs (s : GameState) : (gameOver s).tickMs = s.tickMs := rfl

@[simp] theorem gameOver_isPaused (s : GameState) :
    (gameOver s).isPaused = s.isPaused := rfl

@[simp] theorem gameOver_isGameOver (s : GameState) :
    (gameOver s).isGameOver = true := rfl

@[simp] theorem gameOver_loopRunning (s : GameState) :
    (gameOver s).loopRunning = false := rfl

@[simp] theorem updateScore_snake (n : Nat) (s : GameState) :
    (updateScore n s).snake = s.snake := rfl

@[simp] theorem updateScore_directionQueue (n : Nat) (s : GameState) :
    (updateScore n s).directionQueue = s.directionQueue := rfl

@[simp] theorem updateScore_food (n : Nat) (s : GameState) :
    (updateScore n s).food = s.food := rfl

@[simp] theorem updateScore_score (n : Nat) (s : GameState) :
    (updateScore n s).score = s.score + n := rfl

@[simp] theorem updateScore_tickMs (n : Nat) (s : GameState) :
    (updateScore n s).tickMs = s.tickMs := rfl

@[simp] theorem updateScore_loopRunning (n : Nat) (s : GameState) :
    (updateScore n s).loopRunning = s.loopRunning := rfl

@[simp] theorem updateScore_isPaused (n : Nat) (s : GameState) :
    (updateScore n s).isPaused = s.isPaused := rfl

@[simp] theorem updateScore_isGameOver (n : Nat) (s : GameState) :
    (updateScore n s).isGameOver = s.isGameOver := rfl

@[simp] theorem maybeSpeedUp_snake (d : Difficulty) (s : GameState) :
    (maybeSpeedUp d s).snake = s.snake := by
  unfold maybeSpeedUp; dsimp only; split_ifs <;> rfl

@[simp] theorem maybeSpeedUp_directionQueue (d : Difficulty) (s : GameState) :
    (maybeSpeedUp d s).directionQueue = s.directionQueue := by
  unfold maybeSpeedUp; dsimp only; split_ifs <;> rfl

@[simp] theorem maybeSpeedUp_food (d : Difficulty) (s : GameState) :
    (maybeSpeedUp d s).food = s.food := by
  unfold maybeSpeedUp; dsimp only; split_ifs <;> rfl

@[simp] theorem maybeSpeedUp_score (d : Difficulty) (s : GameState) :
    (maybeSpeedUp d s).score = s.score := by
  unfold maybeSpeedUp; dsimp only; split_ifs <;> rfl

@[simp] theorem maybeSpeedUp_best (d : Difficulty) (s : GameState) :
    (maybeSpeedUp d s).best = s.best := by
  unfold maybeSpeedUp; dsimp only; split_ifs <;> rfl

@[simp] theorem maybeSpeedUp_isPaused (d : Difficulty) (s : GameState) :
    (maybeSpeedUp d s).isPaused = s.isPaused := by
  unfold maybeSpeedUp; dsimp only; split_ifs <;> rfl

@[simp] theorem maybeSpeedUp_isGameOver (d : Difficulty) (s : GameState) :
    (maybeSpeedUp d s).isGameOver = s.isGameOver := by
  unfold maybeSpeedUp; dsimp only; split_ifs <;> rfl

/-- Claim C1: while the game is running, a tick transitions to GameOver
(with the clock stopped) exactly when the computed next head is outside the
`[0, GRID_SIZE)` bounds on either axis, or equals a cell of the snake's full
pre-move body (the current tail included). -/
theorem tick_gameOver_iff (diff : Difficulty) (rng : Nat → Cell) (fuel : Nat)
    (s : GameState) (hd d : Cell) (body qrest : List Cell)
    (hs : s.snake = hd :: body) (hq : s.directionQueue = d :: qrest)
    (hp : s.isPaused = false) (ho : s.isGameOver = false) :
    (tick diff rng fuel s).map (fun s' => (s'.isGameOver, s'.loopRunning))
        = some (true, false) ↔
      hd.x + d.x < 0 ∨ hd.y + d.y < 0 ∨
        GRID_SIZE ≤ hd.x + d.x ∨ GRID_SIZE ≤ hd.y + d.y ∨
        (⟨hd.x + d.x, hd.y + d.y⟩ : Cell) ∈ s.snake := by
  unfold tick
  rw [hp, ho, hq, hs]
  by_cases hw : wallCollision ⟨hd.x + d.x, hd.y + d.y⟩ = true
  case pos =>
    have hw' := wallCollision_iff.mp hw
    dsimp only at hw'
    apply iff_of_true
    · simp [hw]
    · tauto
  case neg =>
    have hw' : ¬(hd.x + d.x < 0 ∨ hd.y + d.y < 0 ∨
        GRID_SIZE ≤ hd.x + d.x ∨ GRID_SIZE ≤ hd.y + d.y) := by
      intro h
      apply hw
      rw [wallCollision_iff]
      dsimp only
      exact h
    by_cases ha : ((hd :: body).any
        fun p => positionsEqual p ⟨hd.x + d.x, hd.y + d.y⟩) = true
    case pos =>
      have ha' := any_positionsEqual_iff.mp ha
      apply iff_of_true
      · simp [hw, ha]
      · exact Or.inr (Or.inr (Or.inr (Or.inr ha')))
    case neg =>
      have ha' : (⟨hd.x + d.x, hd.y + d.y⟩ : Cell) ∉ hd :: body :=
        fun h => ha (any_positionsEqual_iff.mpr h)
      have hrhs : ¬(hd.x + d.x < 0 ∨ hd.y + d.y < 0 ∨
          GRID_SIZE ≤ hd.x + d.x ∨ GRID_SIZE ≤ hd.y + d.y ∨
          (⟨hd.x + d.x, hd.y + d.y⟩ : Cell) ∈ hd :: body) := by
        intro h
        rcases h with h | h | h | h | h
        exacts [hw' (Or.inl h), hw' (Or.inr (Or.inl h)),
          hw' (Or.inr (Or.inr (Or.inl h))), hw' (Or.inr (Or.inr (Or.inr h))),
          ha' h]
      apply iff_of_false ?_ hrhs
      by_cases he : positionsEqual ⟨hd.x + d.x, hd.y + d.y⟩ s.food = true
      · cases hg : getRandomEmptyCell rng
            (⟨hd.x + d.x, hd.y + d.y⟩ :: hd :: body) 0 fuel with
        | none => simp [hw, ha, he, hg]
        | some f => simp [hw, ha, he, hg]
      · simp [hw, ha, he]

theorem tick_gameOver_iff_witness :
    (tick normal rngZero 1 sWall).map (fun s' => (s'.isGameOver, s'.loopRunning))
      = some (true, false) :=
  (tick_gameOver_iff normal rngZero 1 sWall ⟨19, 10⟩ ⟨1, 0⟩
    [⟨18, 10⟩, ⟨17, 10⟩] [] rfl rfl rfl rfl).mpr (by decide)

/-- Claim C2: when the computed next head is within bounds and not on the
snake's body, a tick prepends the next head; when the next head is not the
food the tail is removed and the length is unchanged, and when it is the
food nothing is removed and the length grows by exactly 1. -/
theorem tick_length_spec (diff : Difficulty) (rng : Nat → Cell) (fuel : Nat)
    (s : GameState) (hd d : Cell) (body qrest : List Cell)
    (hs : s.snake = hd :: body) (hq : s.directionQueue = d :: qrest)
    (hp : s.isPaused = false) (ho : s.isGameOver = false)
    (hb : inBounds ⟨hd.x + d.x, hd.y + d.y⟩ = true)
    (hself : (⟨hd.x + d.x, hd.y + d.y⟩ : Cell) ∉ s.snake) :
    ∀ s', tick diff rng fuel s = some s' →
      s'.snake = (⟨hd.x + d.x, hd.y + d.y⟩ : Cell) ::
        (if (⟨hd.x + d.x, hd.y + d.y⟩ : Cell) = s.food then s.snake
         else s.snake.dropLast) ∧
      s'.snake.length = s.snake.length +
        (if (⟨hd.x + d.x, hd.y + d.y⟩ : Cell) = s.food then 1 else 0) := by
  intro s' h
  rw [hs] at hself
  have hw : ¬(wallCollision ⟨hd.x + d.x, hd.y + d.y⟩ = true) := by
    intro hcol
    rw [inBounds_iff] at hb
    rw [wallCollision_iff] at hcol
    dsimp only at hb hcol
    omega
  have ha : ¬(((hd :: body).any
      fun p => positionsEqual p ⟨hd.x + d.x, hd.y + d.y⟩) = true) :=
    fun hmem => hself (any_positionsEqual_iff.mp hmem)
  unfold tick at h
  rw [hp, ho, hq, hs] at h
  by_cases he : positionsEqual ⟨hd.x + d.x, hd.y + d.y⟩ s.food = true
  · have he' : (⟨hd.x + d.x, hd.y + d.y⟩ : Cell) = s.food :=
      positionsEqual_iff.mp he
    cases hg : getRandomEmptyCell rng
        (⟨hd.x + d.x, hd.y + d.y⟩ :: hd :: body) 0 fuel with
    | none => simp [hw, ha, he, hg] at h
    | some f =>
      simp [hw, ha, he, hg] at h
      subst h
      simp [hs, he']
  · have he' : ¬((⟨hd.x + d.x, hd.y + d.y⟩ : Cell) = s.food) :=
      fun hfe => he (positionsEqual_iff.mpr hfe)
    simp [hw, ha, he] at h
    subst h
    simp [hs, he', List.dropLast_cons_of_ne_nil]

theorem tick_length_spec_witness :
    sEatPost.snake = (⟨11, 10⟩ : Cell) ::
      (if (⟨11, 10⟩ : Cell) = sBase.food then sBase.snake
       else sBase.snake.dropLast) ∧
    sEatPost.snake.length = sBase.snake.length +
      (if (⟨11, 10⟩ : Cell) = sBase.food then 1 else 0) :=
  tick_length_spec normal rngZero 1 sBase ⟨10, 10⟩ ⟨1, 0⟩
    [⟨9, 10⟩, ⟨8, 10⟩] [] rfl rfl rfl rfl (by decide) (by decide)
    sEatPost (by decide)

/-- Claim C5: a tick consumes the oldest entry of the direction queue; the
head entry is removed only when more than one entry remains (a single entry
is sticky), so the queue stays nonempty, and when no collision ends the game
the snake's new head is the old head moved by the consumed direction. -/
theorem tick_consume_spec (diff : Difficulty) (rng : Nat → Cell) (fuel : Nat)
    (s : GameState) (hd d : Cell) (body qrest : List Cell)
    (hs : s.snake = hd :: body) (hq : s.directionQueue = d :: qrest)
    (hp : s.isPaused = false) (ho : s.isGameOver = false) :
    ∀ s', tick diff rng fuel s = some s' →
      s'.directionQueue = (if qrest.isEmpty then [d] else qrest) ∧
      s'.directionQueue ≠ [] ∧
      (s'.isGameOver = false →
        s'.snake.head? = some ⟨hd.x + d.x, hd.y + d.y⟩) := by
  intro s' h
  unfold tick at h
  rw [hp, ho, hq, hs] at h
  by_cases hw : wallCollision ⟨hd.x + d.x, hd.y + d.y⟩ = true
  · simp [hw] at h
    subst h
    refine ⟨?_, ?_, ?_⟩
    · cases qrest <;> simp
    · cases qrest <;> simp
    · intro hcontra
      simp at hcontra
  · by_cases ha : (((hd :: body)).any
        fun p => positionsEqual p ⟨hd.x + d.x, hd.y + d.y⟩) = true
    · simp [hw, ha] at h
      subst h
      refine ⟨?_, ?_, ?_⟩
      · cases qrest <;> simp
      · cases qrest <;> simp
      · intro hcontra
        simp at hcontra
    · by_cases he : positionsEqual ⟨hd.x + d.x, hd.y + d.y⟩ s.food = true
      · cases hg : getRandomEmptyCell rng
            (⟨hd.x + d.x, hd.y + d.y⟩ :: hd :: body) 0 fuel with
        | none => simp [hw, ha, he, hg] at h
        | some f =>
          simp [hw, ha, he, hg] at h
          subst h
          refine ⟨?_, ?_, fun _ => by simp⟩
          · cases qrest <;> simp
          · cases qrest <;> simp
      · simp [hw, ha, he] at h
        subst h
        refine ⟨?_, ?_, fun _ => ?_⟩
        · cases qrest <;> simp
        · cases qrest <;> simp
        · simp [List.dropLast_cons_of_ne_nil]

theorem tick_consume_spec_witness :
    sEatPost.directionQueue =
      (if ([] : List Cell).isEmpty then [(⟨1, 0⟩ : Cell)] else []) ∧
    sEatPost.directionQueue ≠ [] ∧
    (sEatPost.isGameOver = false →
      sEatPost.snake.head? = some ⟨11, 10⟩) :=
  tick_consume_spec normal rngZero 1 sBase ⟨10, 10⟩ ⟨1, 0⟩
    [⟨9, 10⟩, ⟨8, 10⟩] [] rfl rfl rfl rfl sEatPost (by decide)

/-- Claim C10: a tick that ends in gameOver leaves the snake, the food, the
score, the best score and the tick interval exactly as they were; the only
changes are the game-over flag, the stopped clock, and the direction queue
possibly having dropped its oldest entry. -/
theorem tick_gameOver_frame (diff : Difficulty) (rng : Nat → Cell) (fuel : Nat)
    (s : GameState) (hd d : Cell) (body qrest : List Cell)
    (hs : s.snake = hd :: body) (hq : s.directionQueue = d :: qrest)
    (hp : s.isPaused = false) (ho : s.isGameOver = false)
    (hcol : hd.x + d.x < 0 ∨ hd.y + d.y < 0 ∨
      GRID_SIZE ≤ hd.x + d.x ∨ GRID_SIZE ≤ hd.y + d.y ∨
      (⟨hd.x + d.x, hd.y + d.y⟩ : Cell) ∈ s.snake) :
    (tick diff rng fuel s).isSome = true ∧
    ∀ s', tick diff rng fuel s = some s' →
      s'.snake = s.snake ∧ s'.food = s.food ∧ s'.score = s.score ∧
      s'.best = s.best ∧ s'.tickMs = s.tickMs ∧ s'.isPaused = s.isPaused ∧
      s'.isGameOver = true ∧ s'.loopRunning = false ∧
      s'.directionQueue = (if qrest.isEmpty then [d] else qrest) := by
  unfold tick
  rw [hq, hs]
  by_cases hw : wallCollision ⟨hd.x + d.x, hd.y + d.y⟩ = true
  · constructor
    · simp [hp, ho, hw]
    · intro s' h
      simp [hp, ho, hw] at h
      subst h
      refine ⟨by simp [hs], by simp, by simp, by simp, by simp,
        by simp [hp], by simp, by simp, ?_⟩
      cases qrest <;> simp
  · have ha : ((hd :: body).any
        fun p => positionsEqual p ⟨hd.x + d.x, hd.y + d.y⟩) = true := by
      rw [any_positionsEqual_iff]
      have hw' : ¬(hd.x + d.x < 0 ∨ hd.y + d.y < 0 ∨
          GRID_SIZE ≤ hd.x + d.x ∨ GRID_SIZE ≤ hd.y + d.y) := by
        intro hh
        apply hw
        rw [wallCollision_iff]
        dsimp only
        exact hh
      rcases hcol with h | h | h | h | h
      · exact absurd (Or.inl h) hw'
      · exact absurd (Or.inr (Or.inl h)) hw'
      · exact absurd (Or.inr (Or.inr (Or.inl h))) hw'
      · exact absurd (Or.inr (Or.inr (Or.inr h))) hw'
      · rw [hs] at h
        exact h
    constructor
    · simp [hp, ho, hw, ha]
    · intro s' h
      simp [hp, ho, hw, ha] at h
      subst h
      refine ⟨by simp [hs], by simp, by simp, by simp, by simp,
        by simp [hp], by simp, by simp, ?_⟩
      cases qrest <;> simp

theorem tick_gameOver_frame_witness :
    (tick normal rngZero 1 sWall).isSome = true ∧
    (gameOver sWall).snake = sWall.snake ∧
    (gameOver sWall).food = sWall.food ∧
    (gameOver sWall).score = sWall.score ∧
    (gameOver sWall).best = sWall.best ∧
    (gameOver sWall).tickMs = sWall.tickMs ∧
    (gameOver sWall).isPaused = sWall.isPaused ∧
    (gameOver sWall).isGameOver = true ∧
    (gameOver sWall).loopRunning = false ∧
    (gameOver sWall).directionQueue =
      (if ([] : List Cell).isEmpty then [(⟨1, 0⟩ : Cell)] else []) :=
  have h := tick_gameOver_frame normal rngZero 1 sWall ⟨19, 10⟩ ⟨1, 0⟩
    [⟨18, 10⟩, ⟨17, 10⟩] [] rfl rfl rfl rfl (by decide)
  ⟨h.1, h.2 (gameOver sWall) (by decide)⟩

/-! ### Direction-queue lemmas -/

theorem noReversalB_append {q : List Cell} {d : Cell}
    (hq : noReversalB q = true) :
    ∀ l, q.getLast? = some l →
      (decide (l.x + d.x = 0) && decide (l.y + d.y = 0)) = false →
      noReversalB (q ++ [d]) = true := by
  induction q with
  | nil =>
    intro l hl _
    simp at hl
  | cons a t ih =>
    intro l hl hld
    cases t with
    | nil =>
      simp at hl
      subst hl
      show (!(decide (a.x + d.x = 0) && decide (a.y + d.y = 0)) &&
        noReversalB [d]) = true
      rw [hld]
      rfl
    | cons b t' =>
      rw [List.getLast?_cons_cons] at hl
      have hq1 : (!(decide (a.x + b.x = 0) && decide (a.y + b.y = 0))) = true ∧
          noReversalB (b :: t') = true := by
        simpa [noReversalB, Bool.and_eq_true] using hq
      have hrest := ih hq1.2 l hl hld
      show (!(decide (a.x + b.x = 0) && decide (a.y + b.y = 0)) &&
        noReversalB (b :: (t' ++ [d]))) = true
      rw [Bool.and_eq_true]
      refine ⟨hq1.1, hrest⟩

/-- Claim C4: `queueDirection` appends the new direction unless it is the
exact opposite of the most recently enqueued one (their vector sum is
(0,0)), in which case it is silently dropped; consequently no two adjacent
queue entries ever sum to (0,0). -/
theorem queueDirection_spec (q : List Cell) (d : Cell)
    (hinv : noReversalB q = true) :
    (q.getLast? = none → queueDirection q d = q ++ [d]) ∧
    (∀ l, q.getLast? = some l →
      ((l.x + d.x = 0 ∧ l.y + d.y = 0) → queueDirection q d = q) ∧
      (¬(l.x + d.x = 0 ∧ l.y + d.y = 0) → queueDirection q d = q ++ [d])) ∧
    noReversalB (queueDirection q d) = true := by
  unfold queueDirection
  cases hl : q.getLast? with
  | none =>
    have hqnil : q = [] := List.getLast?_eq_none_iff.mp hl
    subst hqnil
    refine ⟨fun _ => rfl, ?_, ?_⟩
    · intro l hl'
      simp at hl'
    · simp [noReversalB]
  | some l =>
    refine ⟨?_, ?_, ?_⟩
    · intro hnone
      simp at hnone
    · intro l' hl'
      injection hl' with hll
      subst hll
      dsimp only
      constructor
      · intro hc
        rw [if_pos hc]
      · intro hc
        rw [if_neg hc]
    · dsimp only
      by_cases hc : l.x + d.x = 0 ∧ l.y + d.y = 0
      · rw [if_pos hc]
        exact hinv
      · rw [if_neg hc]
        apply noReversalB_append hinv l hl
        rw [Bool.eq_false_iff]
        intro hb
        exact hc (by simpa using hb)

theorem queueDirection_spec_witness :
    (queueDirection [(⟨1, 0⟩ : Cell)] ⟨-1, 0⟩ = [⟨1, 0⟩]) ∧
    (queueDirection [(⟨1, 0⟩ : Cell)] ⟨0, 1⟩ = [⟨1, 0⟩] ++ [⟨0, 1⟩]) ∧
    noReversalB (queueDirection [(⟨1, 0⟩ : Cell)] ⟨0, 1⟩) = true :=
  ⟨((queueDirection_spec [⟨1, 0⟩] ⟨-1, 0⟩ (by decide)).2.1 ⟨1, 0⟩
      rfl).1 (by decide),
   ((queueDirection_spec [⟨1, 0⟩] ⟨0, 1⟩ (by decide)).2.1 ⟨1, 0⟩
      rfl).2 (by decide),
   (queueDirection_spec [⟨1, 0⟩] ⟨0, 1⟩ (by decide)).2.2⟩

/-! ### Speed-curve lemmas -/

theorem maybeSpeedUp_tickMs (diff : Difficulty) (s : GameState) :
    (maybeSpeedUp diff s).tickMs =
      if 0 < s.score ∧ s.score % diff.speedupFoodInterval = 0 then
        max diff.minTickMs (s.tickMs * diff.speedupFactorNum / 100)
      else s.tickMs := by
  unfold maybeSpeedUp
  dsimp only
  split_ifs with h1 h2
  · rfl
  · rw [not_not] at h2
    exact h2.symm
  · rfl

theorem maybeSpeedUp_tickMs_bounds (diff : Difficulty) (s : GameState)
    (hfac : diff.speedupFactorNum ≤ 100) (hmin : diff.minTickMs ≤ s.tickMs) :
    diff.minTickMs ≤ (maybeSpeedUp diff s).tickMs ∧
      (maybeSpeedUp diff s).tickMs ≤ s.tickMs := by
  rw [maybeSpeedUp_tickMs]
  split_ifs with h1
  · refine ⟨le_max_left _ _, max_le hmin ?_⟩
    calc s.tickMs * diff.speedupFactorNum / 100
        ≤ s.tickMs * 100 / 100 :=
          Nat.div_le_div_right (Nat.mul_le_mul_left _ hfac)
      _ = s.tickMs := by omega
  · exact ⟨hmin, le_rfl⟩

theorem tick_tickMs_via_maybeSpeedUp (diff : Difficulty) (rng : Nat → Cell)
    (fuel : Nat) (s s' : GameState) (h : tick diff rng fuel s = some s') :
    s'.tickMs = s.tickMs ∨
      ∃ s0 : GameState, s0.tickMs = s.tickMs ∧
        s'.tickMs = (maybeSpeedUp diff s0).tickMs := by
  unfold tick at h
  by_cases hpo : (s.isPaused || s.isGameOver) = true
  · rw [if_pos hpo] at h
    injection h with h
    subst h
    exact Or.inl rfl
  · rw [if_neg hpo] at h
    cases hdq : s.directionQueue with
    | nil =>
      rw [hdq] at h
      cases hsn : s.snake <;> rw [hsn] at h <;> simp at h
    | cons dd qrest =>
      cases hsn : s.snake with
      | nil =>
        rw [hdq, hsn] at h
        simp at h
      | cons hd body =>
        rw [hdq, hsn] at h
        dsimp only at h
        by_cases hw : wallCollision ⟨hd.x + dd.x, hd.y + dd.y⟩ = true
        · rw [if_pos hw] at h
          injection h with h
          subst h
          exact Or.inl rfl
        · rw [if_neg hw] at h
          by_cases ha : (s.snake.any
              fun p => positionsEqual p ⟨hd.x + dd.x, hd.y + dd.y⟩) = true
          · rw [hsn] at ha
            rw [if_pos ha] at h
            injection h with h
            subst h
            exact Or.inl rfl
          · rw [hsn] at ha
            rw [if_neg ha] at h
            by_cases he : positionsEqual ⟨hd.x + dd.x, hd.y + dd.y⟩ s.food = true
            · rw [if_pos he] at h
              cases hg : getRandomEmptyCell rng
                  (⟨hd.x + dd.x, hd.y + dd.y⟩ :: hd :: body) 0 fuel with
              | none =>
                rw [hg] at h
                simp at h
              | some f =>
                rw [hg, Option.map_some'] at h
                injection h with h
                subst h
                exact Or.inr ⟨updateScore 1
                  { s with
                    snake := (⟨hd.x + dd.x, hd.y + dd.y⟩ :: hd :: body : List Cell)
                    directionQueue :=
                      if qrest.isEmpty then dd :: qrest else qrest },
                  rfl, rfl⟩
            · rw [if_neg he] at h
              injection h with h
              subst h
              exact Or.inl rfl

/-- Claim C6: within one game the tick interval is monotonically
non-increasing and never drops below `minTickMs`; it is recomputed as
`max(minTickMs, floor(tickMs * speedupFactor))` exactly when the score is a
positive multiple of `speedupFoodInterval`. -/
theorem speed_curve_spec (diff : Difficulty) (s : GameState)
    (hdiff : diff ∈ DIFFICULTIES) (hmin : diff.minTickMs ≤ s.tickMs) :
    diff.minTickMs ≤ diff.initialSpeedMs ∧
    ((maybeSpeedUp diff s).tickMs =
      if 0 < s.score ∧ s.score % diff.speedupFoodInterval = 0 then
        max diff.minTickMs (s.tickMs * diff.speedupFactorNum / 100)
      else s.tickMs) ∧
    diff.minTickMs ≤ (maybeSpeedUp diff s).tickMs ∧
    (maybeSpeedUp diff s).tickMs ≤ s.tickMs ∧
    ∀ (rng : Nat → Cell) (fuel : Nat) (s' : GameState),
      tick diff rng fuel s = some s' →
      diff.minTickMs ≤ s'.tickMs ∧ s'.tickMs ≤ s.tickMs := by
  have hpre : diff.speedupFactorNum ≤ 100 ∧
      diff.minTickMs ≤ diff.initialSpeedMs := by
    simp [DIFFICULTIES] at hdiff
    rcases hdiff with h | h | h | h <;> subst h <;> decide
  obtain ⟨hfac, hinit⟩ := hpre
  have hb := maybeSpeedUp_tickMs_bounds diff s hfac hmin
  refine ⟨hinit, maybeSpeedUp_tickMs diff s, hb.1, hb.2, ?_⟩
  intro rng fuel s' h
  rcases tick_tickMs_via_maybeSpeedUp diff rng fuel s s' h with heq | ⟨s0, h0, heq⟩
  · rw [heq]
    exact ⟨hmin, le_rfl⟩
  · rw [heq]
    have hmin0 : diff.minTickMs ≤ s0.tickMs := by rw [h0]; exact hmin
    have hb0 := maybeSpeedUp_tickMs_bounds diff s0 hfac hmin0
    refine ⟨hb0.1, ?_⟩
    calc (maybeSpeedUp diff s0).tickMs ≤ s0.tickMs := hb0.2
      _ = s.tickMs := h0

theorem speed_curve_spec_witness :
    normal.minTickMs ≤ normal.initialSpeedMs ∧
    normal.minTickMs ≤
      (maybeSpeedUp normal { sBase with score := 4 }).tickMs ∧
    (maybeSpeedUp normal { sBase with score := 4 }).tickMs ≤
      ({ sBase with score := 4 } : GameState).tickMs :=
  have h := speed_curve_spec normal { sBase with score := 4 }
    (by decide) (by decide)
  ⟨h.1, h.2.2.1, h.2.2.2.1⟩

/-! ### Food-placement lemmas -/

theorem getRandomEmptyCell_sound (rng : Nat → Cell)
    (hrng : ∀ n, inBounds (rng n) = true) (excl : List Cell) :
    ∀ (fuel i : Nat) (c : Cell),
      getRandomEmptyCell rng excl i fuel = some c →
      inBounds c = true ∧ c ∉ excl := by
  intro fuel
  induction fuel with
  | zero =>
    intro i c h
    simp [getRandomEmptyCell] at h
  | succ n ih =>
    intro i c h
    simp only [getRandomEmptyCell] at h
    by_cases hx : (excl.any fun p => positionsEqual p (rng i)) = true
    · rw [if_pos hx] at h
      exact ih (i + 1) c h
    · rw [if_neg hx] at h
      injection h with h
      subst h
      exact ⟨hrng i, fun hmem => hx (any_positionsEqual_iff.mpr hmem)⟩

theorem getRandomEmptyCell_terminates (rng : Nat → Cell) (excl : List Cell) :
    ∀ (fuel i : Nat), (∃ j, i ≤ j ∧ j < i + fuel ∧ rng j ∉ excl) →
      (getRandomEmptyCell rng excl i fuel).isSome = true := by
  intro fuel
  induction fuel with
  | zero =>
    rintro i ⟨j, hj1, hj2, _⟩
    omega
  | succ n ih =>
    rintro i ⟨j, hj1, hj2, hj3⟩
    simp only [getRandomEmptyCell]
    by_cases hx : (excl.any fun p => positionsEqual p (rng i)) = true
    · rw [if_pos hx]
      apply ih (i + 1)
      refine ⟨j, ?_, by omega, hj3⟩
      rcases Nat.lt_or_ge i j with hij | hij
      · omega
      · have hji : j = i := by omega
        subst hji
        exact absurd (any_positionsEqual_iff.mp hx) hj3
    · rw [if_neg hx]
      rfl

/-- Claim C7: food never overlaps the snake. Whenever the sample stream is
well-formed (every candidate in bounds, as `randomInt(0, GRID_SIZE)`
guarantees), `getRandomEmptyCell` only returns in-bounds cells outside the
exclusion list, it succeeds as soon as the stream offers a free cell within
the fuel window, and on every tick whose head lands on the food the
relocated food avoids the whole post-move snake body. -/
theorem food_never_on_snake (rng : Nat → Cell)
    (hrng : ∀ n, inBounds (rng n) = true) :
    (∀ (excl : List Cell) (i fuel : Nat) (c : Cell),
      getRandomEmptyCell rng excl i fuel = some c →
      inBounds c = true ∧ c ∉ excl) ∧
    (∀ (excl : List Cell) (i fuel : Nat),
      (∃ j, i ≤ j ∧ j < i + fuel ∧ rng j ∉ excl) →
      (getRandomEmptyCell rng excl i fuel).isSome = true) ∧
    (∀ (diff : Difficulty) (fuel : Nat) (s s' : GameState)
      (hd d : Cell) (body qrest : List Cell),
      s.snake = hd :: body → s.directionQueue = d :: qrest →
      s.isPaused = false → s.isGameOver = false →
      positionsEqual ⟨hd.x + d.x, hd.y + d.y⟩ s.food = true →
      tick diff rng fuel s = some s' → s'.isGameOver = false →
      inBounds s'.food = true ∧ s'.food ∉ s'.snake) := by
  refine ⟨fun excl i fuel c h => getRandomEmptyCell_sound rng hrng excl fuel i c h,
    fun excl i fuel h => getRandomEmptyCell_terminates rng excl fuel i h, ?_⟩
  intro diff fuel s s' hd d body qrest hs hq hp ho he h hnotover
  unfold tick at h
  rw [hp, ho, hq, hs] at h
  by_cases hw : wallCollision ⟨hd.x + d.x, hd.y + d.y⟩ = true
  · simp [hw] at h
    subst h
    simp at hnotover
  · by_cases ha : ((hd :: body).any
        fun p => positionsEqual p ⟨hd.x + d.x, hd.y + d.y⟩) = true
    · simp [hw, ha] at h
      subst h
      simp at hnotover
    · cases hg : getRandomEmptyCell rng
          (⟨hd.x + d.x, hd.y + d.y⟩ :: hd :: body) 0 fuel with
      | none => simp [hw, ha, he, hg] at h
      | some f =>
        simp [hw, ha, he, hg] at h
        subst h
        obtain ⟨hb, hnm⟩ := getRandomEmptyCell_sound rng hrng
          (⟨hd.x + d.x, hd.y + d.y⟩ :: hd :: body) fuel 0 f hg
        constructor
        · simpa using hb
        · simpa using hnm

theorem food_never_on_snake_witness :
    (inBounds (⟨0, 0⟩ : Cell) = true ∧
      (⟨0, 0⟩ : Cell) ∉ ([⟨1, 1⟩] : List Cell)) ∧
    (getRandomEmptyCell rngZero [(⟨1, 1⟩ : Cell)] 0 1).isSome = true ∧
    (inBounds sEatPost.food = true ∧ sEatPost.food ∉ sEatPost.snake) :=
  have h := food_never_on_snake rngZero (fun _ => rfl)
  ⟨h.1 [⟨1, 1⟩] 0 1 ⟨0, 0⟩ rfl,
   h.2.1 [⟨1, 1⟩] 0 1 ⟨0, ⟨Nat.le_refl 0, by decide, by decide⟩⟩,
   h.2.2 normal 1 sBase sEatPost ⟨10, 10⟩ ⟨1, 0⟩ [⟨9, 10⟩, ⟨8, 10⟩] []
     rfl rfl rfl rfl (by decide) (by decide) rfl⟩

/-- Counterexample to claim C8 as stated: the source has no separate pause
entry point, only `togglePause` (wired to the pause button and Space), and
invoking it while already Paused is not a no-op: it flips `isPaused` back to
false and re-arms the clock. -/
theorem togglePause_paused_not_noop : togglePause sPausedGS ≠ sPausedGS := by
  decide

/-- Claim C8 (amended): `resume` while already Running is a no-op, and both
`togglePause` and `resume` are no-ops while GameOver; but the pause control
is a toggle, so invoking it while already Paused resumes the game (clears
`isPaused` and re-arms the clock) instead of being a no-op. -/
theorem pause_resume_idempotence (s : GameState) :
    (s.isPaused = false → resume s = s) ∧
    (s.isGameOver = true → togglePause s = s ∧ resume s = s) ∧
    (s.isPaused = true → s.isGameOver = false →
      togglePause s = { s with isPaused := false, loopRunning := true }) := by
  refine ⟨?_, ?_, ?_⟩
  · intro h
    unfold resume
    rw [h]
    simp
  · intro h
    unfold resume togglePause
    rw [h]
    simp
  · intro hp ho
    unfold togglePause
    rw [ho, hp]
    simp

theorem pause_resume_idempotence_witness :
    resume sBase = sBase ∧
    togglePause { sBase with isGameOver := true }
      = { sBase with isGameOver := true } ∧
    resume { sBase with isGameOver := true }
      = { sBase with isGameOver := true } ∧
    togglePause sPausedGS
      = { sPausedGS with isPaused := false, loopRunning := true } :=
  ⟨(pause_resume_idempotence sBase).1 rfl,
   ((pause_resume_idempotence { sBase with isGameOver := true }).2.1 rfl).1,
   ((pause_resume_idempotence { sBase with isGameOver := true }).2.1 rfl).2,
   (pause_resume_idempotence sPausedGS).2.2 rfl rfl⟩

/-! ### Direction provenance -/

theorem tick_directionQueue_sub (diff : Difficulty) (rng : Nat → Cell)
    (fuel : Nat) (s s' : GameState) (h : tick diff rng fuel s = some s') :
    ∀ c ∈ s'.directionQueue, c ∈ s.directionQueue := by
  unfold tick at h
  by_cases hpo : (s.isPaused || s.isGameOver) = true
  · rw [if_pos hpo] at h
    injection h with h
    subst h
    exact fun c hc => hc
  · rw [if_neg hpo] at h
    cases hdq : s.directionQueue with
    | nil =>
      rw [hdq] at h
      cases hsn : s.snake <;> rw [hsn] at h <;> simp at h
    | cons dd qrest =>
      cases hsn : s.snake with
      | nil =>
        rw [hdq, hsn] at h
        simp at h
      | cons hd body =>
        rw [hdq, hsn] at h
        dsimp only at h
        have hsub : ∀ c : Cell,
            c ∈ (if qrest.isEmpty then dd :: qrest else qrest) →
            c ∈ dd :: qrest := by
          intro c hc
          cases qrest with
          | nil => simpa using hc
          | cons a l => exact List.mem_cons_of_mem _ hc
        by_cases hw : wallCollision ⟨hd.x + dd.x, hd.y + dd.y⟩ = true
        · rw [if_pos hw] at h
          injection h with h
          subst h
          exact fun c hc => hsub c (by simpa using hc)
        · rw [if_neg hw] at h
          by_cases ha : ((hd :: body).any
              fun p => positionsEqual p ⟨hd.x + dd.x, hd.y + dd.y⟩) = true
          · rw [if_pos ha] at h
            injection h with h
            subst h
            exact fun c hc => hsub c (by simpa using hc)
          · rw [if_neg ha] at h
            by_cases he : positionsEqual ⟨hd.x + dd.x, hd.y + dd.y⟩ s.food = true
            · rw [if_pos he] at h
              cases hg : getRandomEmptyCell rng
                  (⟨hd.x + dd.x, hd.y + dd.y⟩ :: hd :: body) 0 fuel with
              | none =>
                rw [hg] at h
                simp at h
              | some f =>
                rw [hg, Option.map_some'] at h
                injection h with h
                subst h
                exact fun c hc => hsub c (by simpa using hc)
            · rw [if_neg he] at h
              injection h with h
              subst h
              exact fun c hc => hsub c (by simpa using hc)

/-- Claim C9: every direction that can enter the queue during play is one of
the four unit vectors: the keyboard map only produces them, the d-pad
intents (per spec §6: `up|down|left|right`) map to them, the initial queue
holds one, `queueDirection` only adds its argument, and a tick only keeps
existing entries; a queue of unit vectors never contains the zero vector. -/
theorem directions_unit_vectors :
    (∀ t ∈ dpadIntents, dirStringToVector t ∈ unitDirs) ∧
    (∀ (k : String) (dir : Cell), keyToDir k = some dir → dir ∈ unitDirs) ∧
    ((⟨1, 0⟩ : Cell) ∈ unitDirs) ∧
    (∀ (q : List Cell) (dir : Cell), (∀ c ∈ q, c ∈ unitDirs) →
      dir ∈ unitDirs → ∀ c ∈ queueDirection q dir, c ∈ unitDirs) ∧
    (∀ (diff : Difficulty) (rng : Nat → Cell) (fuel : Nat)
      (s s' : GameState), tick diff rng fuel s = some s' →
      ∀ c ∈ s'.directionQueue, c ∈ s.directionQueue) ∧
    (∀ q : List Cell, (∀ c ∈ q, c ∈ unitDirs) → (⟨0, 0⟩ : Cell) ∉ q) := by
  refine ⟨?_, ?_, by decide, ?_, tick_directionQueue_sub, ?_⟩
  · intro t ht
    simp [dpadIntents] at ht
    rcases ht with rfl | rfl | rfl | rfl <;> decide
  · intro k dir h
    unfold keyToDir at h
    split_ifs at h
    · injection h with h
      subst h
      decide
    · injection h with h
      subst h
      decide
    · injection h with h
      subst h
      decide
    · injection h with h
      subst h
      decide
  · intro q dir hall hdir c hc
    have hcases : queueDirection q dir = q ∨
        queueDirection q dir = q ++ [dir] := by
      unfold queueDirection
      cases q.getLast? with
      | none => exact Or.inr rfl
      | some l =>
        dsimp only
        split_ifs
        · exact Or.inl rfl
        · exact Or.inr rfl
    rcases hcases with hcq | hcq <;> rw [hcq] at hc
    · exact hall c hc
    · rcases List.mem_append.mp hc with h' | h'
      · exact hall c h'
      · simp at h'
        subst h'
        exact hdir
  · intro q hall hz
    exact absurd (hall _ hz) (by decide)

theorem directions_unit_vectors_witness :
    dirStringToVector "up" ∈ unitDirs ∧
    (⟨1, 0⟩ : Cell) ∈ unitDirs ∧
    (∀ c ∈ queueDirection [(⟨1, 0⟩ : Cell)] ⟨0, 1⟩, c ∈ unitDirs) ∧
    (⟨0, 0⟩ : Cell) ∉ ([⟨1, 0⟩, ⟨0, 1⟩] : List Cell) :=
  ⟨directions_unit_vectors.1 "up" (by decide),
   directions_unit_vectors.2.2.1,
   directions_unit_vectors.2.2.2.1 [⟨1, 0⟩] ⟨0, 1⟩
     (by decide) (by decide),
   directions_unit_vectors.2.2.2.2.2 [⟨1, 0⟩, ⟨0, 1⟩] (by decide)⟩

/-- Claim C3 (code evaluation): `resetGame` does recreate the full state
(fresh snake, direction queue, food, score 0, initial tick interval), but it
leaves `isPaused = false` with the clock armed, and the very next tick
already advances the snake without any resume — the fresh state is not
Paused, even though the source simultaneously surfaces the panel text
"Paused / Press Space or Tap to resume". -/
theorem resetGame_runs_without_resume :
    resetGame normal rngZero 1 0 = some
      { snake := [⟨10, 10⟩, ⟨9, 10⟩, ⟨8, 10⟩]
        directionQueue := [⟨1, 0⟩]
        food := ⟨0, 0⟩
        score := 0
        best := 0
        tickMs := 160
        loopRunning := true
        isPaused := false
        isGameOver := false } ∧
    (((resetGame normal rngZero 1 0).bind (tick normal rngZero 1)).map
        fun s => s.snake) = some [⟨11, 10⟩, ⟨10, 10⟩, ⟨9, 10⟩] := by
  constructor
  · decide
  · decide

end SnakeGame

